import Mathlib

/-!
Verification development for the image-organizer repository.

Shallow embedding of the pipeline shared by the two commands
(`compare_image_content.py` and `groupby_captured_timestamp.py`) and of the
library modules `image_organizer/exif.py`, `image_organizer/filesystem.py`
and `image_organizer/hash.py`, plus the legacy standalone script
`groupby_capture_timestamp.py`.

Modelling conventions:
- A filesystem path is its list of components (`Path := List String`).
- Python `dict` is an association list with first-occurrence key order and
  last-write-wins values (`dictOf` below builds one from an iteration of
  key/value pairs, exactly as a dict comprehension does).
- `collections.defaultdict(list)` grouping is `addToBucket`/`groupPairs`.
- The parallel mapper (`map_mt_with_tqdm` / `pqdm`) preserves input order
  (results[i] = fn(items[i])), so a stage is embedded as `List.map`; the
  stages themselves run strictly sequentially in the orchestrators.
- The filesystem is the set of existing paths (`FS := List Path`); the
  side-effecting part of a command is a list of events (mkdir/copy) run
  sequentially, raising = returning an error message, with the state at the
  moment of the raise (Python exceptions do not roll back mutations).
- `datetime.strptime(s, "%Y:%m:%d %H:%M:%S")` and `datetime.strftime` are
  modelled character-faithfully for the directives the code uses: `%Y`
  parses exactly four digits and formats as an unpadded decimal (years
  below 1000 print without leading zeros), the other fields parse one or
  two digits and format zero-padded to two; all failure modes of
  `strptime` (regex mismatch, out-of-range calendar fields) are
  `ValueError` in Python and collapse to `none` here.
- External collaborators (the `hashlib` digest provider, the byte-reading
  primitive) are parameters, as the spec treats them as black boxes.
-/

namespace ImageOrganizer

/-- A filesystem path, as its list of components. -/
abbrev Path := List String

/-- Python `path.name`: the final component. -/
def pathName (p : Path) : String := p.getLast?.getD ""

/-- Python `path.parent`: all but the final component. -/
def pathParent (p : Path) : Path := p.dropLast

/-- Python `path.relative_to(base)` for paths produced by `base.rglob(..)`:
drop the leading `base` components. -/
def relativeTo (p base : Path) : Path := p.drop base.length

/-- Model of Python `datetime.datetime` restricted to the fields the code
uses (the commands only format year/month/day; the parser also reads the
time-of-day fields). -/
structure DateTime where
  year : Nat
  month : Nat
  day : Nat
  hour : Nat
  minute : Nat
  second : Nat
deriving DecidableEq, Repr

/-- The `--groupby` choice (`click.Choice(['year', 'month', 'day'])`). -/
inductive Groupby where
  | year
  | month
  | day
deriving DecidableEq, Repr

/-- The `--hasher` choice (`click.Choice(['sha256', 'sha512'])`). -/
inductive HashMethod where
  | sha256
  | sha512
deriving DecidableEq, Repr

/-- An EXIF tag value: PIL returns arbitrary Python objects; the code only
distinguishes strings from everything else (`isinstance(tag_value, str)`),
so non-string values are collapsed to a numeric payload. -/
inductive TagValue where
  | str (s : String)
  | num (n : Nat)
deriving DecidableEq, Repr

/-- The mapping returned by `img.getexif()`: EXIF tag id to value. -/
abbrev ExifMap := List (Nat × TagValue)

section Dict

variable {α : Type} {β : Type} [DecidableEq α]

/-- Python `d.get(k)` / `d[k]` on a dict modelled as an association list. -/
def dictGet (d : List (α × β)) (k : α) : Option β :=
  (d.find? (fun e => decide (e.1 = k))).map (fun e => e.2)

/-- Python `d[k] = v`: overwrite the entry in place if the key is present
(keys keep their first-insertion position), else append a new entry. -/
def dictInsert : List (α × β) → α → β → List (α × β)
  | [], k, v => [(k, v)]
  | e :: rest, k, v =>
    if e.1 = k then (k, v) :: rest else e :: dictInsert rest k v

/-- Python dict built from an iteration of key/value pairs (the semantics of
a dict comprehension): last write wins for duplicate keys. -/
def dictOf (l : List (α × β)) : List (α × β) :=
  l.foldl (fun d e => dictInsert d e.1 e.2) []

end Dict

/-- `collections.defaultdict(list)`: `d[name].append(p)` — append to the
entry for `name` if present, else create a new singleton entry at the end. -/
def addToBucket : List (String × List Path) → String → Path → List (String × List Path)
  | [], name, p => [(name, [p])]
  | e :: rest, name, p =>
    if e.1 = name then (e.1, e.2 ++ [p]) :: rest else e :: addToBucket rest name p

/-! ### Model of `datetime.strptime(s, "%Y:%m:%d %H:%M:%S")`
(`image_organizer/exif.py` line 38 and the three calls in the legacy
`groupby_capture_timestamp.py`). The `%Y` field is exactly four digits
(CPython `_strptime` pattern `\d\d\d\d`); each two-digit field is a maximal
run of one or two digits whose value is then range-checked (together this
accepts and rejects exactly the strings CPython's bounded alternation
patterns plus the `datetime` constructor do); literal `:` matches itself; a
whitespace literal in the format matches one or more whitespace characters
(`_strptime` replaces whitespace in the format with `\s+`); trailing
unconverted data is rejected. Every failure is a `ValueError` in Python,
hence `none` here. -/

/-- Numeric value of a digit run. -/
def natOfDigits (cs : List Char) : Nat :=
  cs.foldl (fun a c => a * 10 + (c.toNat - 48)) 0

/-- Consume a run of 1 to `maxLen` digits (the run must not extend past
`maxLen`). Used with `maxLen = 2` for the month/day/hour/minute/second
fields: combined with the calendar range checks below this accepts and
rejects exactly the inputs CPython's bounded alternation patterns (such as
`1[0-2]|0[1-9]|[1-9]` for `%m`) followed by a separator do. -/
def parseNumField (maxLen : Nat) (cs : List Char) : Option (Nat × List Char) :=
  let run := cs.takeWhile Char.isDigit
  if run.length = 0 ∨ maxLen < run.length then none
  else some (natOfDigits run, cs.drop run.length)

/-- The `%Y` field of `_strptime`: exactly four digits (`\d\d\d\d`), so a
one-to-three-digit year such as in "999:01:02 03:04:05" is rejected, while
leading zeros ("0999:..") make years below 1000 reachable. -/
def parseYear4 : List Char → Option (Nat × List Char)
  | c1 :: c2 :: c3 :: c4 :: rest =>
    if c1.isDigit && c2.isDigit && c3.isDigit && c4.isDigit then
      some (natOfDigits [c1, c2, c3, c4], rest)
    else none
  | _ => none

/-- Consume one expected literal character. -/
def expectChar (c : Char) : List Char → Option (List Char)
  | [] => none
  | x :: rest => if x = c then some rest else none

/-- Consume one or more whitespace characters (a whitespace literal in a
`strptime` format matches `\s+`). -/
def expectSpaces (cs : List Char) : Option (List Char) :=
  let run := cs.takeWhile Char.isWhitespace
  if run.length = 0 then none else some (cs.drop run.length)

/-- Gregorian leap year, as `datetime`'s calendar. -/
def isLeapYear (y : Nat) : Bool :=
  (y % 4 = 0 && !(y % 100 = 0)) || y % 400 = 0

/-- Days in a month, as `datetime`'s calendar. -/
def daysInMonth (y m : Nat) : Nat :=
  if m = 2 then (if isLeapYear y then 29 else 28)
  else if m = 4 ∨ m = 6 ∨ m = 9 ∨ m = 11 then 30
  else 31

/-- The `datetime` constructor's validity checks (MINYEAR = 1,
MAXYEAR = 9999; seconds 60/61 are rejected by the constructor). -/
def validDateTime (y mo d h mi s : Nat) : Bool :=
  decide (1 ≤ y) && decide (y ≤ 9999) &&
  decide (1 ≤ mo) && decide (mo ≤ 12) &&
  decide (1 ≤ d) && decide (d ≤ daysInMonth y mo) &&
  decide (h ≤ 23) && decide (mi ≤ 59) && decide (s ≤ 59)

/-- `datetime.strptime(s, "%Y:%m:%d %H:%M:%S")`, returning `none` where
Python raises `ValueError`. -/
def parseExifDatetime (s : String) : Option DateTime := do
  let (y, r1) ← parseYear4 s.data
  let r2 ← expectChar ':' r1
  let (mo, r3) ← parseNumField 2 r2
  let r4 ← expectChar ':' r3
  let (d, r5) ← parseNumField 2 r4
  let r6 ← expectSpaces r5
  let (h, r7) ← parseNumField 2 r6
  let r8 ← expectChar ':' r7
  let (mi, r9) ← parseNumField 2 r8
  let r10 ← expectChar ':' r9
  let (sec, r11) ← parseNumField 2 r10
  if r11.isEmpty && validDateTime y mo d h mi sec then
    some (DateTime.mk y mo d h mi sec)
  else
    none

/-! ### `image_organizer/exif.py` -/

/-- `PIL.ExifTags.Base.DateTime` (0x0132). -/
def dateTimeTag : Nat := 306

/-- `PIL.ExifTags.Base.DateTimeOriginal` (0x9003). -/
def dateTimeOriginalTag : Nat := 36867

/-- `PIL.ExifTags.Base.DateTimeDigitized` (0x9004). -/
def dateTimeDigitizedTag : Nat := 36868

/-- `_try_parse_exif_datetime` (`image_organizer/exif.py` lines 28-41):
absent tag, non-string value (logged) and unparsable string (logged,
`ValueError` caught) all yield `None`. -/
def _try_parse_exif_datetime (exif_tags : ExifMap) (tag_key : Nat) : Option DateTime :=
  match dictGet exif_tags tag_key with
  | none => none
  | some (TagValue.str s) => parseExifDatetime s
  | some (TagValue.num _) => none

/-- The tag priority order of `get_img_captured_timestamp`
(`image_organizer/exif.py` line 50). -/
def tagPriority : List Nat := [dateTimeOriginalTag, dateTimeDigitizedTag, dateTimeTag]

/-- The `for tag_key in (..)` loop of `get_img_captured_timestamp`:
return the first tag that parses, else fall through. -/
def firstParsedTimestamp (exif_tags : ExifMap) : List Nat → Option DateTime
  | [] => none
  | k :: ks =>
    match _try_parse_exif_datetime exif_tags k with
    | some t => some t
    | none => firstParsedTimestamp exif_tags ks

/-- `get_img_captured_timestamp` (`image_organizer/exif.py` lines 43-57). -/
def get_img_captured_timestamp (exif_tags : ExifMap) : Option DateTime :=
  firstParsedTimestamp exif_tags tagPriority

/-! ### Legacy `groupby_capture_timestamp.py`, lines 62-85.
Each of its three blocks is `if tag in attrs: try: return strptime(..)
except ValueError: pass`. `strptime` on a non-string value raises
`TypeError`, which `except ValueError` does not catch, so it propagates:
modelled as `Except.error ()`. -/

/-- One `if tag in attrs: try .. except ValueError: pass` block of the
legacy extractor. `Except.ok (some t)` = early return, `Except.ok none` =
fall through to the next block, `Except.error ()` = uncaught `TypeError`. -/
def legacyTryTag (exif_attrs : ExifMap) (k : Nat) : Except Unit (Option DateTime) :=
  match dictGet exif_attrs k with
  | none => Except.ok none
  | some (TagValue.str s) =>
    match parseExifDatetime s with
    | some t => Except.ok (some t)
    | none => Except.ok none
  | some (TagValue.num _) => Except.error ()

/-- `get_img_capture_timestamp` (`groupby_capture_timestamp.py` lines 62-85). -/
def get_img_capture_timestamp (exif_attrs : ExifMap) : Except Unit (Option DateTime) :=
  match legacyTryTag exif_attrs dateTimeOriginalTag with
  | Except.error e => Except.error e
  | Except.ok (some t) => Except.ok (some t)
  | Except.ok none =>
    match legacyTryTag exif_attrs dateTimeDigitizedTag with
    | Except.error e => Except.error e
    | Except.ok (some t) => Except.ok (some t)
    | Except.ok none =>
      match legacyTryTag exif_attrs dateTimeTag with
      | Except.error e => Except.error e
      | Except.ok r => Except.ok r

/-! ### Model of `datetime.strftime` for the directives the code uses.
CPython's `datetime.strftime` delegates to the C library: `%m`/`%d` (and
`%H`/`%M`/`%S`) are zero-padded two-digit fields, while `%Y` prints the
year as a plain decimal number, NOT zero-padded — a year below 1000
formats without leading zeros (999 gives "999"). -/

/-- A decimal numeral left-padded with zeros to width `w`. -/
def padZero (w n : Nat) : String :=
  let s := Nat.repr n
  if s.length < w then String.mk (List.replicate (w - s.length) '0') ++ s else s

/-- One `strftime` directive: `%Y` is the unpadded decimal year, the
two-digit fields are zero-padded. The code only uses the known directives
below; anything else is left verbatim. -/
def formatDirective (t : DateTime) (c : Char) : String :=
  if c = 'Y' then Nat.repr t.year
  else if c = 'm' then padZero 2 t.month
  else if c = 'd' then padZero 2 t.day
  else if c = 'H' then padZero 2 t.hour
  else if c = 'M' then padZero 2 t.minute
  else if c = 'S' then padZero 2 t.second
  else String.mk ['%', c]

/-- `strftime` over the format's characters. -/
def strftimeAux (t : DateTime) : List Char → List Char
  | [] => []
  | '%' :: c :: rest => (formatDirective t c).data ++ strftimeAux t rest
  | c :: rest => c :: strftimeAux t rest

/-- `timestamp.strftime(fmt)`. -/
def strftime (t : DateTime) (fmt : String) : String :=
  String.mk (strftimeAux t fmt.data)

/-- `_get_dst_dir_name` (`groupby_captured_timestamp.py` lines 24-30). -/
def _get_dst_dir_name (timestamp : DateTime) (groupby : Groupby) : String :=
  match groupby with
  | Groupby.year => strftime timestamp "%Y"
  | Groupby.month => strftime timestamp "%Y%m"
  | Groupby.day => strftime timestamp "%Y%m%d"

/-! ### The grouping loop of `groupby_captured_timestamp.py`, lines 73-84. -/

/-- The bucket name chosen for one `(path, timestamp)` pair:
`'UNKNOWN'` when the timestamp is `None`, else `_get_dst_dir_name`. -/
def dstDirNameFor (ts : Option DateTime) (g : Groupby) : String :=
  match ts with
  | none => "UNKNOWN"
  | some t => _get_dst_dir_name t g

/-- The `defaultdict(list)` populated by the grouping loop: bucket name to
the source paths appended to it, in input order. -/
def groupPairs (pairs : List (Path × Option DateTime)) (g : Groupby) :
    List (String × List Path) :=
  pairs.foldl (fun acc pr => addToBucket acc (dstDirNameFor pr.2 g) pr.1) []

/-- The pair iteration underlying `src_img_path_to_dst_img_path`
(`groupby_captured_timestamp.py` lines 86-90): each source path maps to
`dst / dir_name / path.name` (flattened). -/
def mappingPairs (dst : Path) (buckets : List (String × List Path)) :
    List (Path × Path) :=
  buckets.flatMap (fun b => b.2.map (fun s => (s, dst ++ [b.1, pathName s])))

/-- `src_img_path_to_dst_img_path` (`groupby_captured_timestamp.py`
lines 86-90), as the dict comprehension builds it. -/
def groupMapping (dst : Path) (pairs : List (Path × Option DateTime)) (g : Groupby) :
    List (Path × Path) :=
  dictOf (mappingPairs dst (groupPairs pairs g))

/-! ### Filesystem state and the materialization events. -/

/-- The filesystem: the collection of existing paths (files and
directories alike — `Path.exists()` does not distinguish them). -/
abbrev FS := List Path

/-- One side-effecting step of a pipeline. -/
inductive Event where
  | mkdir (p : Path)
  | copy (src dst : Path)
deriving DecidableEq, Repr

/-- All non-empty prefixes of a path, the leaf included. -/
def ancestorsOf (p : Path) : List Path :=
  (List.range p.length).map (fun i => p.take (i + 1))

/-- `mkdirp` (`image_organizer/filesystem.py` lines 15-20):
`path.mkdir(parents=True)` — raises `FileExistsError` if the path itself
already exists, otherwise creates it and any missing ancestors. -/
def mkdirp (fs : FS) (p : Path) : Except String FS :=
  if fs.contains p then Except.error "FileExistsError"
  else Except.ok (fs ++ (ancestorsOf p).filter (fun a => !fs.contains a))

/-- `_copyfile` / `shutil.copyfile`: fails if the source does not exist or
the destination's parent directory does not exist; overwrites the
destination file otherwise. -/
def copyfile (fs : FS) (src dst : Path) : Except String FS :=
  if !fs.contains src then Except.error "FileNotFoundError"
  else if !fs.contains (pathParent dst) then Except.error "FileNotFoundError"
  else Except.ok (if fs.contains dst then fs else fs ++ [dst])

/-- Apply one event to the filesystem. -/
def stepEvent (fs : FS) : Event → Except String FS
  | Event.mkdir p => mkdirp fs p
  | Event.copy src dst => copyfile fs src dst

/-- Run events sequentially, stopping at the first failure (the parallel
mapper is fail-fast and the stages run sequentially); the state at the
failure is kept, as a Python exception does not roll back prior
mutations. -/
def runSteps : FS → List Event → FS × Option String
  | fs, [] => (fs, none)
  | fs, e :: rest =>
    match stepEvent fs e with
    | Except.ok fs2 => runSteps fs2 rest
    | Except.error msg => (fs, some msg)

/-- One materialization phase pair for one path mapping: create the
deduplicated destination parent directories (`{path.parent for path in
mapping.values()}` mapped over `mkdirp`), then copy every pair; the mkdir
stage is a separate (drained) mapper call, so all of it precedes every
copy. -/
def phaseEvents (m : List (Path × Path)) : List Event :=
  ((m.map (fun e => pathParent e.2)).dedup).map Event.mkdir
    ++ m.map (fun e => Event.copy e.1 e.2)

/-- The event trace of `groupby_captured_timestamp` lines 92-104. -/
def groupbyTrace (dst : Path) (pairs : List (Path × Option DateTime)) (g : Groupby) :
    List Event :=
  phaseEvents (groupMapping dst pairs g)

/-- The `ValueError` message raised when the destination root exists. -/
def destExistsMsg : String := "ValueError: the destination directory already exists"

/-- `groupby_captured_timestamp` (`groupby_captured_timestamp.py`
lines 39-104), with enumeration and metadata extraction supplied as the
`(path, timestamp)` pairs: reject an existing destination root first,
otherwise group, build the mapping and materialize. -/
def groupby_captured_timestamp (fs : FS) (dst : Path)
    (pairs : List (Path × Option DateTime)) (g : Groupby) : FS × Option String :=
  if fs.contains dst then (fs, some destExistsMsg)
  else runSteps fs (groupbyTrace dst pairs g)

/-! ### `compare_image_content.py`. -/

/-- `src_img_hash_to_path` (`compare_image_content.py` lines 66-69 and
78-81): the dict comprehension `{hash: path for path, hash in zip(..)}`. -/
def buildHashToPath (pairs : List (Path × String)) : List (String × Path) :=
  dictOf (pairs.map (fun pr => (pr.2, pr.1)))

/-- Hash set of one source (`set(src_img_hashes)`, lines 83-84), as a
`Finset`. -/
def hashSet (hashes : List String) : Finset String := hashes.toFinset

/-- `hashes_in_both` (`compare_image_content.py` line 85). -/
def hashes_in_both (h1 h2 : List String) : Finset String :=
  hashSet h1 ∩ hashSet h2

/-- `hashes_in_src1_only` (`compare_image_content.py` line 86). -/
def hashes_in_src1_only (h1 h2 : List String) : Finset String :=
  hashSet h1 \ hashSet h2

/-- `hashes_in_src2_only` (`compare_image_content.py` line 87). -/
def hashes_in_src2_only (h1 h2 : List String) : Finset String :=
  hashSet h2 \ hashSet h1

/-- One bucket's `{src_path: dst / bucket / path.relative_to(srcRoot)}`
dict comprehension, iterating over a hash set. Python set iteration order
is unspecified; it is fixed here as deduplicated first-occurrence order,
which no claim depends on. -/
def bucketMapping (srcRoot dst : Path) (bucketName : String)
    (hashToPath : List (String × Path)) (hashes : List String) : List (Path × Path) :=
  dictOf (hashes.map (fun h =>
    let p := (dictGet hashToPath h).getD []
    (p, dst ++ [bucketName] ++ relativeTo p srcRoot)))

/-- The event trace of `compare_image_content` lines 83-144: the three
buckets materialized in sequence, each with its mkdir phase before its
copy phase. -/
def compareTrace (src1 src2 dst : Path) (pairs1 pairs2 : List (Path × String)) :
    List Event :=
  let d1 := buildHashToPath pairs1
  let d2 := buildHashToPath pairs2
  let h1 := (pairs1.map (fun pr => pr.2)).dedup
  let h2 := (pairs2.map (fun pr => pr.2)).dedup
  let both := h1.filter (fun h => h2.contains h)
  let only1 := h1.filter (fun h => !h2.contains h)
  let only2 := h2.filter (fun h => !h1.contains h)
  phaseEvents (bucketMapping src1 dst "both" d1 both)
    ++ phaseEvents (bucketMapping src1 dst "src1_only" d1 only1)
    ++ phaseEvents (bucketMapping src2 dst "src2_only" d2 only2)

/-- `compare_image_content` (`compare_image_content.py` lines 29-144), with
enumeration and hashing supplied as the `(path, hash)` pairs per source:
reject an existing destination root first, otherwise partition and
materialize the three buckets. -/
def compare_image_content (fs : FS) (src1 src2 dst : Path)
    (pairs1 pairs2 : List (Path × String)) : FS × Option String :=
  if fs.contains dst then (fs, some destExistsMsg)
  else runSteps fs (compareTrace src1 src2 dst pairs1 pairs2)

/-! ### `image_organizer/hash.py`. -/

/-- `compute_hash` (`image_organizer/hash.py` lines 13-28). The byte
reader (`Path.read_bytes`, `none` when it raises) and the digest provider
(`hashlib`, per the spec an external black box) are parameters. The
function is total: a read failure is caught and becomes the empty-string
sentinel, never an exception. -/
def compute_hash (readBytes : Path → Option (List Nat))
    (hexdigest : HashMethod → List Nat → String)
    (img_path : Path) (hash_method : HashMethod) : String :=
  match readBytes img_path with
  | none => ""
  | some content => hexdigest hash_method content

/-! ## Lemmas about the dict model. -/

section DictLemmas

variable {α : Type} {β : Type} [DecidableEq α]

theorem dictGet_nil (k : α) : dictGet ([] : List (α × β)) k = none := rfl

theorem dictGet_cons (e : α × β) (d : List (α × β)) (k : α) :
    dictGet (e :: d) k = if e.1 = k then some e.2 else dictGet d k := by
  by_cases h : e.1 = k <;> simp [dictGet, List.find?_cons, h]

theorem dictGet_dictInsert (d : List (α × β)) (k : α) (v : β) (k' : α) :
    dictGet (dictInsert d k v) k' = if k' = k then some v else dictGet d k' := by
  induction d with
  | nil =>
    by_cases h : k' = k
    · subst h; simp [dictInsert, dictGet_cons]
    · have hkk : ¬ k = k' := fun hh => h hh.symm
      simp [dictInsert, dictGet_cons, dictGet_nil, h, hkk]
  | cons e rest ih =>
    by_cases he : e.1 = k
    · by_cases h : k' = k
      · subst h; simp [dictInsert, he, dictGet_cons]
      · have hek : ¬ e.1 = k' := fun hh => h (hh ▸ he ▸ rfl)
        have hkk : ¬ k = k' := fun hh => h hh.symm
        simp [dictInsert, he, dictGet_cons, h, hek, hkk]
    · by_cases h : k' = k
      · subst h
        have hek : ¬ e.1 = k' := he
        simp [dictInsert, he, dictGet_cons, ih, hek]
      · simp [dictInsert, he, dictGet_cons, ih, h]

theorem dictInsert_keys (d : List (α × β)) (k : α) (v : β) :
    (dictInsert d k v).map Prod.fst =
      if d.any (fun e => decide (e.1 = k)) then d.map Prod.fst
      else d.map Prod.fst ++ [k] := by
  induction d with
  | nil => simp [dictInsert]
  | cons e rest ih =>
    by_cases he : e.1 = k
    · simp [dictInsert, he]
    · simp only [dictInsert, if_neg he, List.map_cons, List.any_cons, ih]
      by_cases hr : rest.any (fun e => decide (e.1 = k)) <;> simp [he, hr]

theorem mem_dictInsert (d : List (α × β)) (k : α) (v : β) (e : α × β)
    (h : e ∈ dictInsert d k v) : e = (k, v) ∨ e ∈ d := by
  induction d with
  | nil => simp [dictInsert] at h; simp [h]
  | cons f rest ih =>
    by_cases hf : f.1 = k
    · simp [dictInsert, hf] at h
      rcases h with h | h
      · exact Or.inl h
      · exact Or.inr (List.mem_cons_of_mem f h)
    · simp [dictInsert, hf] at h
      rcases h with h | h
      · exact Or.inr (h ▸ List.mem_cons_self f rest)
      · rcases ih h with h2 | h2
        · exact Or.inl h2
        · exact Or.inr (List.mem_cons_of_mem f h2)

theorem mem_foldl_dictInsert (l : List (α × β)) (d : List (α × β)) (e : α × β)
    (h : e ∈ l.foldl (fun d2 f => dictInsert d2 f.1 f.2) d) : e ∈ d ∨ e ∈ l := by
  induction l generalizing d with
  | nil => exact Or.inl h
  | cons f rest ih =>
    simp only [List.foldl_cons] at h
    rcases ih (dictInsert d f.1 f.2) h with h2 | h2
    · rcases mem_dictInsert d f.1 f.2 e h2 with h3 | h3
      · exact Or.inr (h3 ▸ List.mem_cons_self f rest)
      · exact Or.inl h3
    · exact Or.inr (List.mem_cons_of_mem f h2)

theorem mem_dictOf (l : List (α × β)) (e : α × β) (h : e ∈ dictOf l) : e ∈ l := by
  rcases mem_foldl_dictInsert l [] e h with h2 | h2
  · cases h2
  · exact h2

theorem nodupKeys_foldl_dictInsert (l : List (α × β)) (d : List (α × β))
    (h : (d.map Prod.fst).Nodup) :
    ((l.foldl (fun d2 f => dictInsert d2 f.1 f.2) d).map Prod.fst).Nodup := by
  induction l generalizing d with
  | nil => exact h
  | cons f rest ih =>
    simp only [List.foldl_cons]
    apply ih
    rw [dictInsert_keys]
    by_cases hany : d.any (fun e => decide (e.1 = f.1))
    · simpa [hany] using h
    · have hnot : f.1 ∉ d.map Prod.fst := by
        intro hmem
        rcases List.mem_map.mp hmem with ⟨e, he, hfst⟩
        exact hany (List.any_eq_true.mpr ⟨e, he, by simp [hfst]⟩)
      simp only [if_neg hany]
      exact List.Nodup.append h (List.nodup_singleton f.1)
        (by simpa [List.disjoint_singleton] using hnot)

theorem nodupKeys_dictOf (l : List (α × β)) : ((dictOf l).map Prod.fst).Nodup :=
  nodupKeys_foldl_dictInsert l [] (by simp)

theorem dictGet_foldl_dictInsert (l : List (α × β)) (d : List (α × β)) (k : α) :
    dictGet (l.foldl (fun d2 f => dictInsert d2 f.1 f.2) d) k =
      match l.reverse.find? (fun e => decide (e.1 = k)) with
      | some e => some e.2
      | none => dictGet d k := by
  induction l generalizing d with
  | nil => simp
  | cons f rest ih =>
    simp only [List.foldl_cons, List.reverse_cons, List.find?_append, ih]
    cases hfind : rest.reverse.find? (fun e => decide (e.1 = k)) with
    | some e => simp [Option.orElse]
    | none =>
      by_cases hf : f.1 = k
      · simp [Option.orElse, hf, dictGet_dictInsert]
      · have hkf : ¬ k = f.1 := fun hh => hf hh.symm
        simp [Option.orElse, hf, dictGet_dictInsert, hkf]

theorem dictGet_dictOf (l : List (α × β)) (k : α) :
    dictGet (dictOf l) k =
      (l.reverse.find? (fun e => decide (e.1 = k))).map (fun e => e.2) := by
  rw [dictOf, dictGet_foldl_dictInsert]
  cases l.reverse.find? (fun e => decide (e.1 = k)) <;> simp [dictGet_nil]

theorem dictGet_of_mem_nodupKeys (d : List (α × β)) (e : α × β)
    (hn : (d.map Prod.fst).Nodup) (hm : e ∈ d) : dictGet d e.1 = some e.2 := by
  induction d with
  | nil => cases hm
  | cons f rest ih =>
    rcases List.mem_cons.mp hm with h | h
    · subst h; simp [dictGet_cons]
    · have hne : ¬ f.1 = e.1 := by
        intro hh
        have : e.1 ∈ rest.map Prod.fst := List.mem_map.mpr ⟨e, h, rfl⟩
        simp only [List.map_cons, List.nodup_cons] at hn
        exact hn.1 (hh ▸ this)
      have hn2 : (rest.map Prod.fst).Nodup := by
        simp only [List.map_cons, List.nodup_cons] at hn
        exact hn.2
      simp [dictGet_cons, hne, ih hn2 h]

theorem pair_eq_of_fst_nodup (l : List (α × β)) (p : α) (a b : β)
    (hn : (l.map Prod.fst).Nodup) (ha : (p, a) ∈ l) (hb : (p, b) ∈ l) : a = b := by
  have h1 := dictGet_of_mem_nodupKeys l (p, a) hn ha
  have h2 := dictGet_of_mem_nodupKeys l (p, b) hn hb
  simp only at h1 h2
  rw [h1] at h2
  exact (Option.some.injEq _ _).mp h2

end DictLemmas

/-! ## Lemmas about the defaultdict grouping. -/

theorem dictGet_addToBucket (acc : List (String × List Path)) (name : String)
    (p : Path) (l : String) :
    dictGet (addToBucket acc name p) l =
      if l = name then some ((dictGet acc name).getD [] ++ [p]) else dictGet acc l := by
  induction acc with
  | nil =>
    by_cases h : l = name
    · subst h; simp [addToBucket, dictGet_cons, dictGet_nil]
    · have hnl : ¬ name = l := fun hh => h hh.symm
      simp [addToBucket, dictGet_cons, dictGet_nil, h, hnl]
  | cons e rest ih =>
    by_cases he : e.1 = name
    · by_cases h : l = name
      · subst h; simp [addToBucket, he, dictGet_cons]
      · have hel : ¬ e.1 = l := fun hh => h (hh.symm.trans he)
        have hnl : ¬ name = l := fun hh => h hh.symm
        simp [addToBucket, he, dictGet_cons, hel, h, hnl]
    · by_cases h : l = name
      · subst h; simp [addToBucket, he, dictGet_cons, ih]
      · simp [addToBucket, he, dictGet_cons, ih, h]

theorem dictGet_groupPairs_aux (g : Groupby) (pairs : List (Path × Option DateTime))
    (acc : List (String × List Path)) (l : String) :
    dictGet (pairs.foldl (fun a pr => addToBucket a (dstDirNameFor pr.2 g) pr.1) acc) l =
      match dictGet acc l with
      | some ps0 =>
        some (ps0 ++ (pairs.filter (fun pr => decide (dstDirNameFor pr.2 g = l))).map Prod.fst)
      | none =>
        if pairs.filter (fun pr => decide (dstDirNameFor pr.2 g = l)) = [] then none
        else some ((pairs.filter (fun pr => decide (dstDirNameFor pr.2 g = l))).map Prod.fst) := by
  induction pairs generalizing acc with
  | nil => cases h : dictGet acc l <;> simp [h]
  | cons pr rest ih =>
    simp only [List.foldl_cons]
    rw [ih, dictGet_addToBucket, List.filter_cons]
    by_cases h : dstDirNameFor pr.2 g = l
    · subst h
      cases hacc : dictGet acc (dstDirNameFor pr.2 g) with
      | some ps0 => simp [hacc, List.append_assoc]
      | none => simp [hacc]
    · have hln : ¬ l = dstDirNameFor pr.2 g := fun hh => h hh.symm
      have hd : decide (dstDirNameFor pr.2 g = l) = false := decide_eq_false h
      rw [hd]
      cases hacc : dictGet acc l with
      | some ps0 => simp [hacc, h, hln]
      | none => simp [hacc, h, hln]

theorem dictGet_groupPairs (pairs : List (Path × Option DateTime)) (g : Groupby)
    (l : String) :
    dictGet (groupPairs pairs g) l =
      if pairs.filter (fun pr => decide (dstDirNameFor pr.2 g = l)) = [] then none
      else some ((pairs.filter (fun pr => decide (dstDirNameFor pr.2 g = l))).map Prod.fst) := by
  rw [groupPairs, dictGet_groupPairs_aux]
  simp [dictGet_nil]

theorem addToBucket_keys (acc : List (String × List Path)) (name : String) (p : Path) :
    (addToBucket acc name p).map Prod.fst =
      if acc.any (fun e => decide (e.1 = name)) then acc.map Prod.fst
      else acc.map Prod.fst ++ [name] := by
  induction acc with
  | nil => simp [addToBucket]
  | cons e rest ih =>
    by_cases he : e.1 = name
    · simp [addToBucket, he]
    · simp only [addToBucket, if_neg he, List.map_cons, List.any_cons, ih]
      by_cases hr : rest.any (fun e => decide (e.1 = name)) <;> simp [he, hr]

theorem addToBucket_keys_nodup (acc : List (String × List Path)) (name : String)
    (p : Path) (h : (acc.map Prod.fst).Nodup) :
    ((addToBucket acc name p).map Prod.fst).Nodup := by
  rw [addToBucket_keys]
  by_cases hany : acc.any (fun e => decide (e.1 = name))
  · simpa [hany] using h
  · have hnot : name ∉ acc.map Prod.fst := by
      intro hmem
      rcases List.mem_map.mp hmem with ⟨e, he, hfst⟩
      exact hany (List.any_eq_true.mpr ⟨e, he, by simp [hfst]⟩)
    simp only [if_neg hany]
    exact List.Nodup.append h (List.nodup_singleton name)
      (by simpa [List.disjoint_singleton] using hnot)

theorem groupPairs_keys_aux (g : Groupby) (pairs : List (Path × Option DateTime))
    (acc : List (String × List Path)) (h : (acc.map Prod.fst).Nodup) :
    (((pairs.foldl (fun a pr => addToBucket a (dstDirNameFor pr.2 g) pr.1) acc)).map
      Prod.fst).Nodup := by
  induction pairs generalizing acc with
  | nil => exact h
  | cons pr rest ih =>
    simp only [List.foldl_cons]
    exact ih _ (addToBucket_keys_nodup acc _ pr.1 h)

theorem groupPairs_keys_nodup (pairs : List (Path × Option DateTime)) (g : Groupby) :
    ((groupPairs pairs g).map Prod.fst).Nodup :=
  groupPairs_keys_aux g pairs [] (by simp)

/-! ## Lemmas about strftime and the extractors. -/

theorem strftime_Y (t : DateTime) : strftime t "%Y" = Nat.repr t.year := by
  show String.mk ((Nat.repr t.year).data ++ []) = Nat.repr t.year
  rw [List.append_nil]

theorem strftime_Ym (t : DateTime) :
    strftime t "%Y%m" = Nat.repr t.year ++ padZero 2 t.month := by
  show String.mk ((Nat.repr t.year).data ++ ((padZero 2 t.month).data ++ [])) =
    Nat.repr t.year ++ padZero 2 t.month
  rw [List.append_nil]
  rfl

theorem strftime_Ymd (t : DateTime) :
    strftime t "%Y%m%d" = Nat.repr t.year ++ padZero 2 t.month ++ padZero 2 t.day := by
  show String.mk ((Nat.repr t.year).data ++
      ((padZero 2 t.month).data ++ ((padZero 2 t.day).data ++ []))) =
    Nat.repr t.year ++ padZero 2 t.month ++ padZero 2 t.day
  rw [List.append_nil, ← List.append_assoc]
  rfl

theorem toDigitsCore_length_ge (b : Nat) :
    ∀ (f n : Nat) (acc : List Char), acc.length ≤ (Nat.toDigitsCore b f n acc).length := by
  intro f
  induction f with
  | zero => intro n acc; simp [Nat.toDigitsCore]
  | succ f ih =>
    intro n acc
    simp only [Nat.toDigitsCore]
    by_cases h : n / b = 0
    · rw [if_pos h, List.length_cons]
      omega
    · rw [if_neg h]
      have h2 := ih (n / b) (Nat.digitChar (n % b) :: acc)
      rw [List.length_cons] at h2
      omega

theorem toDigitsCore_length_ge_pow (k : Nat) :
    ∀ (f n : Nat) (acc : List Char), 10 ^ k ≤ n → k + 1 ≤ f →
      k + 1 + acc.length ≤ (Nat.toDigitsCore 10 f n acc).length := by
  induction k with
  | zero =>
    intro f n acc _ hf
    obtain ⟨f2, rfl⟩ : ∃ f2, f = f2 + 1 := ⟨f - 1, by omega⟩
    simp only [Nat.toDigitsCore]
    by_cases h : n / 10 = 0
    · rw [if_pos h, List.length_cons]
      omega
    · rw [if_neg h]
      have h2 := toDigitsCore_length_ge 10 f2 (n / 10) (Nat.digitChar (n % 10) :: acc)
      rw [List.length_cons] at h2
      omega
  | succ k ih =>
    intro f n acc hn hf
    obtain ⟨f2, rfl⟩ : ∃ f2, f = f2 + 1 := ⟨f - 1, by omega⟩
    have hdiv : 10 ^ k ≤ n / 10 := by
      have h1 : 10 ^ (k + 1) / 10 = 10 ^ k := by
        rw [pow_succ]
        exact Nat.mul_div_cancel _ (by norm_num)
      calc 10 ^ k = 10 ^ (k + 1) / 10 := h1.symm
        _ ≤ n / 10 := Nat.div_le_div_right hn
    have hne : ¬ n / 10 = 0 := by
      have hp : 0 < 10 ^ k := Nat.pos_pow_of_pos k (by norm_num)
      omega
    simp only [Nat.toDigitsCore]
    rw [if_neg hne]
    have h2 := ih f2 (n / 10) (Nat.digitChar (n % 10) :: acc) hdiv (by omega)
    rw [List.length_cons] at h2
    omega

theorem repr_length_ge_four (n : Nat) (h : 1000 ≤ n) : 4 ≤ (Nat.repr n).length := by
  have h3 : 10 ^ 3 ≤ n := by
    have : (10 : Nat) ^ 3 = 1000 := by norm_num
    omega
  have h4 := toDigitsCore_length_ge_pow 3 (n + 1) n [] h3 (by omega)
  simpa [Nat.repr, Nat.toDigits, String.length, List.asString] using h4

theorem padZero_eq_repr (y : Nat) (h : 1000 ≤ y) : padZero 4 y = Nat.repr y := by
  have hlen := repr_length_ge_four y h
  show (if (Nat.repr y).length < 4 then
    String.mk (List.replicate (4 - (Nat.repr y).length) '0') ++ Nat.repr y
    else Nat.repr y) = Nat.repr y
  rw [if_neg (by omega)]

theorem firstParsedTimestamp_eq (exif_tags : ExifMap) (ks : List Nat) :
    firstParsedTimestamp exif_tags ks =
      (ks.filterMap (_try_parse_exif_datetime exif_tags)).head? := by
  induction ks with
  | nil => rfl
  | cons k rest ih =>
    cases h : _try_parse_exif_datetime exif_tags k with
    | some t => simp [firstParsedTimestamp, h, List.filterMap_cons]
    | none => simp [firstParsedTimestamp, h, List.filterMap_cons, ih]

theorem legacyTryTag_eq_ok (exif_attrs : ExifMap) (k : Nat)
    (h : ∀ v, dictGet exif_attrs k = some v → ∃ s, v = TagValue.str s) :
    legacyTryTag exif_attrs k = Except.ok (_try_parse_exif_datetime exif_attrs k) := by
  cases hv : dictGet exif_attrs k with
  | none => simp [legacyTryTag, _try_parse_exif_datetime, hv]
  | some v =>
    rcases h v hv with ⟨s, rfl⟩
    cases hp : parseExifDatetime s <;>
      simp [legacyTryTag, _try_parse_exif_datetime, hv, hp]

/-! ## Further helper lemmas. -/

theorem mem_of_dictGet_some {α : Type} {β : Type} [DecidableEq α]
    (d : List (α × β)) (k : α) (v : β) (h : dictGet d k = some v) : (k, v) ∈ d := by
  unfold dictGet at h
  cases hf : d.find? (fun e => decide (e.1 = k)) with
  | none => rw [hf] at h; cases h
  | some e =>
    rw [hf] at h
    have hpe := @List.find?_some _ (fun x : α × β => decide (x.1 = k)) e d hf
    have he1 : e.1 = k := by simpa using hpe
    have hev : e.2 = v := by simpa using h
    have hmem : e ∈ d := List.mem_of_find?_eq_some hf
    rw [← he1, ← hev]
    simpa using hmem

theorem bucket_source_of_mem (pairs : List (Path × Option DateTime)) (g : Groupby)
    (b : String × List Path) (s : Path)
    (hb : b ∈ groupPairs pairs g) (hs : s ∈ b.2) :
    ∃ t, (s, t) ∈ pairs ∧ dstDirNameFor t g = b.1 := by
  have hget : dictGet (groupPairs pairs g) b.1 = some b.2 :=
    dictGet_of_mem_nodupKeys _ b (groupPairs_keys_nodup pairs g) hb
  rw [dictGet_groupPairs] at hget
  by_cases hemp : pairs.filter (fun pr => decide (dstDirNameFor pr.2 g = b.1)) = []
  · rw [if_pos hemp] at hget; cases hget
  · rw [if_neg hemp] at hget
    have hps : b.2 =
        (pairs.filter (fun pr => decide (dstDirNameFor pr.2 g = b.1))).map Prod.fst :=
      ((Option.some.injEq _ _).mp hget).symm
    rw [hps] at hs
    rcases List.mem_map.mp hs with ⟨pr, hfil, hfst⟩
    have hmem : pr ∈ pairs := (List.mem_filter.mp hfil).1
    have hlab : dstDirNameFor pr.2 g = b.1 := by
      have := (List.mem_filter.mp hfil).2
      simpa using this
    refine ⟨pr.2, ?_, hlab⟩
    rw [← hfst]
    simpa using hmem

theorem phaseEvents_mkdir_index (m : List (Path × Path)) (i : Nat) (ev : Event)
    (h : (((m.map (fun e => pathParent e.2)).dedup).map Event.mkdir)[i]? = some ev) :
    ∃ p, ev = Event.mkdir p ∧ ((m.map (fun e => pathParent e.2)).dedup)[i]? = some p := by
  rw [List.getElem?_map] at h
  cases hp : ((m.map (fun e => pathParent e.2)).dedup)[i]? with
  | none => rw [hp] at h; cases h
  | some p =>
    rw [hp] at h
    exact ⟨p, by simpa using h.symm, rfl⟩

theorem phaseEvents_copy_index (m : List (Path × Path)) (i : Nat) (ev : Event)
    (h : (m.map (fun e => Event.copy e.1 e.2))[i]? = some ev) :
    ∃ pr, ev = Event.copy pr.1 pr.2 ∧ m[i]? = some pr := by
  rw [List.getElem?_map] at h
  cases hp : m[i]? with
  | none => rw [hp] at h; cases h
  | some pr =>
    rw [hp] at h
    exact ⟨pr, by simpa using h.symm, rfl⟩

theorem phaseEvents_order (m : List (Path × Path)) :
    (∀ (i : Nat) (p : Path), (phaseEvents m)[i]? = some (Event.mkdir p) →
      ∀ (j : Nat) (s d : Path), (phaseEvents m)[j]? = some (Event.copy s d) → i < j) ∧
    (∀ (i : Nat) (s d : Path), (phaseEvents m)[i]? = some (Event.copy s d) →
      ∃ j : Nat, j < i ∧ (phaseEvents m)[j]? = some (Event.mkdir (pathParent d))) := by
  unfold phaseEvents
  set A := ((m.map (fun e => pathParent e.2)).dedup).map Event.mkdir with hA
  set B := m.map (fun e => Event.copy e.1 e.2) with hB
  have hcopy_ge : ∀ (i : Nat) (s d : Path), (A ++ B)[i]? = some (Event.copy s d) → A.length ≤ i := by
    intro i s d hi
    by_contra hlt
    push_neg at hlt
    rw [List.getElem?_append, if_pos hlt] at hi
    rcases phaseEvents_mkdir_index m i _ hi with ⟨p, hp, _⟩
    cases hp
  have hmk_lt : ∀ (i : Nat) (p : Path), (A ++ B)[i]? = some (Event.mkdir p) → i < A.length := by
    intro i p hi
    by_cases hlt : i < A.length
    · exact hlt
    · rw [List.getElem?_append, if_neg hlt] at hi
      rcases phaseEvents_copy_index m (i - A.length) _ hi with ⟨pr, hpr, _⟩
      cases hpr
  constructor
  · intro i p hi j s d hj
    exact Nat.lt_of_lt_of_le (hmk_lt i p hi) (hcopy_ge j s d hj)
  · intro i s d hi
    have hge : A.length ≤ i := hcopy_ge i s d hi
    have hj : (A ++ B)[i]? = B[i - A.length]? := by
      rw [List.getElem?_append, if_neg (by omega)]
    rw [hj] at hi
    rcases phaseEvents_copy_index m (i - A.length) _ hi with ⟨pr, hpr, hm⟩
    have hprd : pr.2 = d := by
      cases hpr
      rfl
    have hmem : pr ∈ m := by
      rcases List.getElem?_eq_some.mp hm with ⟨hlt, hget⟩
      exact hget ▸ List.getElem_mem hlt
    have hpar : pathParent d ∈ (m.map (fun e => pathParent e.2)).dedup := by
      rw [List.mem_dedup, ← hprd]
      exact List.mem_map_of_mem _ hmem
    rcases List.mem_iff_getElem.mp hpar with ⟨j, hjlt, hjget⟩
    refine ⟨j, ?_, ?_⟩
    · have : A.length = ((m.map (fun e => pathParent e.2)).dedup).length := by
        rw [hA, List.length_map]
      omega
    · have hjA : A[j]? = some (Event.mkdir (pathParent d)) := by
        rw [hA, List.getElem?_map]
        rw [List.getElem?_eq_some.mpr ⟨hjlt, hjget⟩]
        rfl
      rw [List.getElem?_append, if_pos (by
        have : A.length = ((m.map (fun e => pathParent e.2)).dedup).length := by
          rw [hA, List.length_map]
        omega)]
      exact hjA

/-! ## Claim theorems. -/

/-- C1: In comparison mode, for every pair of input hash lists, the derived
hash sets `both` (intersection), `src1_only` (hashes of src1 minus hashes of
src2) and `src2_only` (hashes of src2 minus hashes of src1) are pairwise
disjoint and their union equals the union of the two hash sets. -/
theorem compare_hash_sets_partition (h1 h2 : List String) :
    Disjoint (hashes_in_both h1 h2) (hashes_in_src1_only h1 h2) ∧
    Disjoint (hashes_in_both h1 h2) (hashes_in_src2_only h1 h2) ∧
    Disjoint (hashes_in_src1_only h1 h2) (hashes_in_src2_only h1 h2) ∧
    hashes_in_both h1 h2 ∪ hashes_in_src1_only h1 h2 ∪ hashes_in_src2_only h1 h2 =
      hashSet h1 ∪ hashSet h2 := by
  refine ⟨?_, ?_, ?_, ?_⟩
  · simp only [hashes_in_both, hashes_in_src1_only, Finset.disjoint_left,
      Finset.mem_inter, Finset.mem_sdiff]
    tauto
  · simp only [hashes_in_both, hashes_in_src2_only, Finset.disjoint_left,
      Finset.mem_inter, Finset.mem_sdiff]
    tauto
  · simp only [hashes_in_src1_only, hashes_in_src2_only, Finset.disjoint_left,
      Finset.mem_sdiff]
    tauto
  · ext a
    simp only [hashes_in_both, hashes_in_src1_only, hashes_in_src2_only,
      Finset.mem_union, Finset.mem_inter, Finset.mem_sdiff]
    tauto

/-- C5 counterexample: `strftime` does not zero-pad `%Y` below 1000, so the
bucket labels for year 999 are "999", "99901" and "9990102", not the
zero-padded "0999" forms the claim asserts for every timestamp; such a
timestamp is reachable, since the program's own parser accepts
"0999:01:02 03:04:05". -/
theorem dst_dir_name_not_zero_padded :
    parseExifDatetime "0999:01:02 03:04:05" = some (DateTime.mk 999 1 2 3 4 5) ∧
    _get_dst_dir_name (DateTime.mk 999 1 2 3 4 5) Groupby.year = "999" ∧
    _get_dst_dir_name (DateTime.mk 999 1 2 3 4 5) Groupby.month = "99901" ∧
    _get_dst_dir_name (DateTime.mk 999 1 2 3 4 5) Groupby.day = "9990102" ∧
    _get_dst_dir_name (DateTime.mk 999 1 2 3 4 5) Groupby.year ≠ padZero 4 999 :=
  ⟨by decide, by decide, by decide, by decide, by decide⟩

/-- C5 amended: the bucket-label function formats granularity year as the
unpadded decimal year, month as that followed by the zero-padded two-digit
month, and day as that followed by the zero-padded two-digit day; for years
of four or more digits (1000 and up) the year field coincides with the
zero-padded `YYYY`, giving the claimed `YYYY`/`YYYYMM`/`YYYYMMDD` formats;
in particular 2023-07-04T10:00:00 yields "2023", "202307" and
"20230704". -/
theorem dst_dir_name_formats (t : DateTime) :
    _get_dst_dir_name t Groupby.year = Nat.repr t.year ∧
    _get_dst_dir_name t Groupby.month = Nat.repr t.year ++ padZero 2 t.month ∧
    _get_dst_dir_name t Groupby.day =
      Nat.repr t.year ++ padZero 2 t.month ++ padZero 2 t.day ∧
    (1000 ≤ t.year →
      _get_dst_dir_name t Groupby.year = padZero 4 t.year ∧
      _get_dst_dir_name t Groupby.month = padZero 4 t.year ++ padZero 2 t.month ∧
      _get_dst_dir_name t Groupby.day =
        padZero 4 t.year ++ padZero 2 t.month ++ padZero 2 t.day) ∧
    _get_dst_dir_name (DateTime.mk 2023 7 4 10 0 0) Groupby.year = "2023" ∧
    _get_dst_dir_name (DateTime.mk 2023 7 4 10 0 0) Groupby.month = "202307" ∧
    _get_dst_dir_name (DateTime.mk 2023 7 4 10 0 0) Groupby.day = "20230704" :=
  ⟨strftime_Y t, strftime_Ym t, strftime_Ymd t,
    fun hy => ⟨by
        show strftime t "%Y" = padZero 4 t.year
        rw [strftime_Y t, padZero_eq_repr t.year hy],
      by
        show strftime t "%Y%m" = padZero 4 t.year ++ padZero 2 t.month
        rw [strftime_Ym t, padZero_eq_repr t.year hy],
      by
        show strftime t "%Y%m%d" =
          padZero 4 t.year ++ padZero 2 t.month ++ padZero 2 t.day
        rw [strftime_Ymd t, padZero_eq_repr t.year hy]⟩,
    by decide, by decide, by decide⟩

/-- Witness for the amended C5: the four-digit year 2023 formats as the
zero-padded `YYYY`/`YYYYMM`/`YYYYMMDD` labels. -/
theorem dst_dir_name_formats_witness :
    _get_dst_dir_name (DateTime.mk 2023 7 4 10 0 0) Groupby.year = padZero 4 2023 ∧
    _get_dst_dir_name (DateTime.mk 2023 7 4 10 0 0) Groupby.month =
      padZero 4 2023 ++ padZero 2 7 ∧
    _get_dst_dir_name (DateTime.mk 2023 7 4 10 0 0) Groupby.day =
      padZero 4 2023 ++ padZero 2 7 ++ padZero 2 4 :=
  (dst_dir_name_formats (DateTime.mk 2023 7 4 10 0 0)).2.2.2.1 (by decide)

/-- C9: The hash-to-path dict keeps exactly one representative path per hash
(its keys are distinct), and the surviving representative for a hash is the
path of the last input pair carrying that hash (last write wins in
iteration order). -/
theorem hash_to_path_last_write_wins (pairs : List (Path × String)) (h : String) :
    ((buildHashToPath pairs).map Prod.fst).Nodup ∧
    dictGet (buildHashToPath pairs) h =
      (pairs.reverse.find? (fun pr => decide (pr.2 = h))).map (fun pr => pr.1) := by
  constructor
  · exact nodupKeys_dictOf _
  · rw [buildHashToPath, dictGet_dictOf, ← List.map_reverse, List.find?_map,
      Option.map_map]
    rfl

/-- C6: `compute_hash` is total (never raises): a failed read yields the
empty-string sentinel, a successful read yields the digest of the full
content under the selected algorithm, and any two unreadable paths get the
same (colliding) empty key. -/
theorem compute_hash_sentinel (readBytes : Path → Option (List Nat))
    (hexdigest : HashMethod → List Nat → String) (m : HashMethod)
    (p q r : Path) (c : List Nat)
    (hp : readBytes p = none) (hq : readBytes q = some c) (hr : readBytes r = none) :
    compute_hash readBytes hexdigest p m = "" ∧
    compute_hash readBytes hexdigest q m = hexdigest m c ∧
    compute_hash readBytes hexdigest r m = compute_hash readBytes hexdigest p m := by
  simp [compute_hash, hp, hq, hr]

/-- Witness for C6 at a concrete filesystem and digest provider. -/
theorem compute_hash_sentinel_witness :
    compute_hash (fun p => if p = ["f"] then some [7] else none)
      (fun _ c => Nat.repr (List.length c)) ["a"] HashMethod.sha256 = "" ∧
    compute_hash (fun p => if p = ["f"] then some [7] else none)
      (fun _ c => Nat.repr (List.length c)) ["f"] HashMethod.sha256 = "1" ∧
    compute_hash (fun p => if p = ["f"] then some [7] else none)
      (fun _ c => Nat.repr (List.length c)) ["b"] HashMethod.sha256 =
      compute_hash (fun p => if p = ["f"] then some [7] else none)
        (fun _ c => Nat.repr (List.length c)) ["a"] HashMethod.sha256 :=
  compute_hash_sentinel (fun p => if p = ["f"] then some [7] else none)
    (fun _ c => Nat.repr (List.length c)) HashMethod.sha256
    ["a"] ["f"] ["b"] [7] (by decide) (by decide) (by decide)

/-- C3: The extractor tries DateTimeOriginal, DateTimeDigitized, DateTime in
order and returns the first present-and-parsable value; a present but
malformed or non-string tag is skipped; if no tag parses it returns none.
In particular with a malformed DateTimeOriginal and a valid
DateTimeDigitized the digitized value is returned. -/
theorem captured_timestamp_priority (exif_tags : ExifMap) (s1 s2 : String) (t : DateTime)
    (h1 : dictGet exif_tags dateTimeOriginalTag = some (TagValue.str s1))
    (h2 : parseExifDatetime s1 = none)
    (h3 : dictGet exif_tags dateTimeDigitizedTag = some (TagValue.str s2))
    (h4 : parseExifDatetime s2 = some t) :
    get_img_captured_timestamp exif_tags = some t ∧
    (∀ e : ExifMap, get_img_captured_timestamp e =
      (tagPriority.filterMap (_try_parse_exif_datetime e)).head?) ∧
    (∀ e : ExifMap, (∀ k, k ∈ tagPriority → _try_parse_exif_datetime e k = none) →
      get_img_captured_timestamp e = none) := by
  refine ⟨?_, fun e => firstParsedTimestamp_eq e tagPriority, fun e he => ?_⟩
  · have ha : _try_parse_exif_datetime exif_tags dateTimeOriginalTag = none := by
      simp [_try_parse_exif_datetime, h1, h2]
    have hb : _try_parse_exif_datetime exif_tags dateTimeDigitizedTag = some t := by
      simp [_try_parse_exif_datetime, h3, h4]
    simp [get_img_captured_timestamp, tagPriority, firstParsedTimestamp, ha, hb]
  · simp [get_img_captured_timestamp, tagPriority, firstParsedTimestamp,
      he dateTimeOriginalTag (by simp [tagPriority]),
      he dateTimeDigitizedTag (by simp [tagPriority]),
      he dateTimeTag (by simp [tagPriority])]

/-- Witness for C3: malformed DateTimeOriginal, valid DateTimeDigitized. -/
theorem captured_timestamp_priority_witness :
    get_img_captured_timestamp
      [(dateTimeOriginalTag, TagValue.str "not a date"),
       (dateTimeDigitizedTag, TagValue.str "2021:02:03 04:05:06")] =
      some (DateTime.mk 2021 2 3 4 5 6) :=
  (captured_timestamp_priority
    [(dateTimeOriginalTag, TagValue.str "not a date"),
     (dateTimeDigitizedTag, TagValue.str "2021:02:03 04:05:06")]
    "not a date" "2021:02:03 04:05:06" (DateTime.mk 2021 2 3 4 5 6)
    (by decide) (by decide) (by decide) (by decide)).1

/-- C10 counterexample: on an EXIF mapping whose DateTimeOriginal value is
present but not a string, the legacy extractor raises (uncaught TypeError,
modelled as an error) while the modular extractor returns none, so the two
are not equivalent. -/
theorem legacy_modular_divergence :
    get_img_capture_timestamp [(dateTimeOriginalTag, TagValue.num 123)] =
      Except.error () ∧
    get_img_captured_timestamp [(dateTimeOriginalTag, TagValue.num 123)] = none ∧
    ∀ r, get_img_capture_timestamp [(dateTimeOriginalTag, TagValue.num 123)] ≠
      Except.ok r := by
  refine ⟨rfl, rfl, fun r hr => ?_⟩
  have h0 : get_img_capture_timestamp [(dateTimeOriginalTag, TagValue.num 123)] =
      Except.error () := rfl
  rw [h0] at hr
  cases hr

/-- C10 amended: the two extractors agree (the legacy one returns, without
raising, exactly the modular one's result) on every EXIF mapping whose
values at the three priority tags are strings whenever present. -/
theorem legacy_modular_agree (exif : ExifMap)
    (h : ∀ k v, k ∈ tagPriority → dictGet exif k = some v → ∃ s, v = TagValue.str s) :
    get_img_capture_timestamp exif = Except.ok (get_img_captured_timestamp exif) := by
  have hA := legacyTryTag_eq_ok exif dateTimeOriginalTag
    (fun v hv => h dateTimeOriginalTag v (by simp [tagPriority]) hv)
  have hB := legacyTryTag_eq_ok exif dateTimeDigitizedTag
    (fun v hv => h dateTimeDigitizedTag v (by simp [tagPriority]) hv)
  have hC := legacyTryTag_eq_ok exif dateTimeTag
    (fun v hv => h dateTimeTag v (by simp [tagPriority]) hv)
  simp only [get_img_capture_timestamp, hA, hB, hC]
  cases ha : _try_parse_exif_datetime exif dateTimeOriginalTag with
  | some t => simp [get_img_captured_timestamp, tagPriority, firstParsedTimestamp, ha]
  | none =>
    cases hb : _try_parse_exif_datetime exif dateTimeDigitizedTag with
    | some t => simp [get_img_captured_timestamp, tagPriority, firstParsedTimestamp, ha, hb]
    | none =>
      cases hc : _try_parse_exif_datetime exif dateTimeTag with
      | some t =>
        simp [get_img_captured_timestamp, tagPriority, firstParsedTimestamp, ha, hb, hc]
      | none =>
        simp [get_img_captured_timestamp, tagPriority, firstParsedTimestamp, ha, hb, hc]

/-- Witness for the amended C10 at a concrete all-string EXIF mapping. -/
theorem legacy_modular_agree_witness :
    get_img_capture_timestamp [(dateTimeTag, TagValue.str "2020:01:02 03:04:05")] =
      Except.ok (get_img_captured_timestamp
        [(dateTimeTag, TagValue.str "2020:01:02 03:04:05")]) :=
  legacy_modular_agree [(dateTimeTag, TagValue.str "2020:01:02 03:04:05")]
    (by
      intro k v hk hv
      simp only [tagPriority, dateTimeOriginalTag, dateTimeDigitizedTag, dateTimeTag,
        List.mem_cons, List.mem_singleton, List.not_mem_nil, or_false] at hk
      rcases hk with rfl | rfl | rfl
      · simp [dictGet, List.find?, dateTimeTag] at hv
      · simp [dictGet, List.find?, dateTimeTag] at hv
      · refine ⟨"2020:01:02 03:04:05", ?_⟩
        simp [dictGet, List.find?, dateTimeTag] at hv
        exact hv.symm)

/-- C2: In single-source grouping, every input path lands in exactly one
bucket: its timestamp's bucket when present, the "UNKNOWN" bucket when the
timestamp is none (provided, as the enumeration guarantees, the input paths
are distinct). -/
theorem groupby_partition (pairs : List (Path × Option DateTime)) (g : Groupby)
    (hnd : (pairs.map Prod.fst).Nodup) :
    dstDirNameFor none g = "UNKNOWN" ∧
    (∀ t, dstDirNameFor (some t) g = _get_dst_dir_name t g) ∧
    ∀ p ts, (p, ts) ∈ pairs →
      (∃ ps, dictGet (groupPairs pairs g) (dstDirNameFor ts g) = some ps ∧ p ∈ ps) ∧
      (∀ l ps, dictGet (groupPairs pairs g) l = some ps → p ∈ ps →
        l = dstDirNameFor ts g) := by
  refine ⟨rfl, fun t => rfl, fun p ts hmem => ⟨?_, ?_⟩⟩
  · rw [dictGet_groupPairs]
    have hfil : (p, ts) ∈ pairs.filter
        (fun pr => decide (dstDirNameFor pr.2 g = dstDirNameFor ts g)) :=
      List.mem_filter.mpr ⟨hmem, by simp⟩
    rw [if_neg (List.ne_nil_of_mem hfil)]
    exact ⟨_, rfl, List.mem_map.mpr ⟨(p, ts), hfil, rfl⟩⟩
  · intro l ps hget hin
    rw [dictGet_groupPairs] at hget
    by_cases hemp : pairs.filter (fun pr => decide (dstDirNameFor pr.2 g = l)) = []
    · rw [if_pos hemp] at hget; cases hget
    · rw [if_neg hemp] at hget
      have hps : ps =
          (pairs.filter (fun pr => decide (dstDirNameFor pr.2 g = l))).map Prod.fst :=
        ((Option.some.injEq _ _).mp hget).symm
      rw [hps] at hin
      rcases List.mem_map.mp hin with ⟨pr, hfil, hfst⟩
      have hprm : pr ∈ pairs := (List.mem_filter.mp hfil).1
      have hlab : dstDirNameFor pr.2 g = l := by
        have := (List.mem_filter.mp hfil).2
        simpa using this
      have hp2 : (p, pr.2) ∈ pairs := by
        rw [← hfst]
        simpa using hprm
      have : pr.2 = ts := pair_eq_of_fst_nodup pairs p pr.2 ts hnd hp2 hmem
      rw [← hlab, this]

/-- Witness for C2: a single unknown-timestamp file lands in the UNKNOWN
bucket. -/
theorem groupby_partition_witness :
    ∃ ps, dictGet (groupPairs [(["s", "a.jpg"], none)] Groupby.month)
      (dstDirNameFor none Groupby.month) = some ps ∧ ["s", "a.jpg"] ∈ ps :=
  (((groupby_partition [(["s", "a.jpg"], none)] Groupby.month (by decide)).2.2)
    ["s", "a.jpg"] none (by simp)).1

/-- C8 counterexample: in the group pipeline two distinct source paths with
the same filename and the same (UNKNOWN) bucket map to the same destination
path, so the built mapping is not a 1:1 relation. -/
theorem group_mapping_not_one_to_one :
    dictGet (groupMapping ["d"] [(["a", "x.jpg"], none), (["b", "x.jpg"], none)]
        Groupby.month) ["a", "x.jpg"] = some ["d", "UNKNOWN", "x.jpg"] ∧
    dictGet (groupMapping ["d"] [(["a", "x.jpg"], none), (["b", "x.jpg"], none)]
        Groupby.month) ["b", "x.jpg"] = some ["d", "UNKNOWN", "x.jpg"] ∧
    (["a", "x.jpg"] : Path) ≠ ["b", "x.jpg"] :=
  ⟨by decide, by decide, by decide⟩

/-- C8 amended: the built path mapping is a function keyed by source path
and is injective (1:1) provided no two distinct input files whose
timestamps select the same bucket share a filename; with duplicate
filenames in one bucket, distinct sources may map to one destination
(overwrite behavior, not guarded by the system). -/
theorem group_mapping_one_to_one (dst : Path) (pairs : List (Path × Option DateTime))
    (g : Groupby)
    (hinj : ∀ p1 t1 p2 t2, (p1, t1) ∈ pairs → (p2, t2) ∈ pairs →
      dstDirNameFor t1 g = dstDirNameFor t2 g → pathName p1 = pathName p2 → p1 = p2) :
    ∀ s1 s2 d, dictGet (groupMapping dst pairs g) s1 = some d →
      dictGet (groupMapping dst pairs g) s2 = some d → s1 = s2 := by
  intro s1 s2 d hd1 hd2
  have h1 := mem_dictOf _ _ (mem_of_dictGet_some _ _ _ hd1)
  have h2 := mem_dictOf _ _ (mem_of_dictGet_some _ _ _ hd2)
  rw [mappingPairs, List.mem_flatMap] at h1 h2
  rcases h1 with ⟨b1, hb1, hm1⟩
  rcases h2 with ⟨b2, hb2, hm2⟩
  rcases List.mem_map.mp hm1 with ⟨x1, hx1, he1⟩
  rcases List.mem_map.mp hm2 with ⟨x2, hx2, he2⟩
  have hs1 : x1 = s1 := congrArg Prod.fst he1
  have hs2 : x2 = s2 := congrArg Prod.fst he2
  have hd1e : d = dst ++ [b1.1, pathName x1] := (congrArg Prod.snd he1).symm
  have hd2e : d = dst ++ [b2.1, pathName x2] := (congrArg Prod.snd he2).symm
  have heq : ([b1.1, pathName x1] : List String) = [b2.1, pathName x2] :=
    List.append_cancel_left (hd1e ▸ hd2e)
  have hb : b1.1 = b2.1 := by simpa using congrArg (fun l => l.head?) heq
  have hn : pathName x1 = pathName x2 := by
    simpa using congrArg (fun l => l.getLast?) heq
  rcases bucket_source_of_mem pairs g b1 x1 hb1 hx1 with ⟨t1, hmem1, hlab1⟩
  rcases bucket_source_of_mem pairs g b2 x2 hb2 hx2 with ⟨t2, hmem2, hlab2⟩
  rw [← hs1, ← hs2]
  exact hinj x1 t1 x2 t2 hmem1 hmem2 (by rw [hlab1, hlab2, hb]) hn

/-- Witness for the amended C8 on a two-file input with distinct
filenames. -/
theorem group_mapping_one_to_one_witness :
    (["a", "x.jpg"] : Path) = ["a", "x.jpg"] :=
  group_mapping_one_to_one ["d"] [(["a", "x.jpg"], none), (["b", "y.jpg"], none)]
    Groupby.month
    (by
      intro p1 t1 p2 t2 h1 h2 hl hn
      simp only [List.mem_cons, List.mem_singleton, List.not_mem_nil, or_false,
        Prod.mk.injEq] at h1 h2
      rcases h1 with ⟨rfl, rfl⟩ | ⟨rfl, rfl⟩ <;> rcases h2 with ⟨rfl, rfl⟩ | ⟨rfl, rfl⟩
      · rfl
      · simp [pathName] at hn
      · simp [pathName] at hn
      · rfl)
    ["a", "x.jpg"] ["a", "x.jpg"] ["d", "UNKNOWN", "x.jpg"] (by decide) (by decide)

/-- C7: In the group pipeline's materialization trace, every mkdir precedes
every copy (phase 1 drains before phase 2 starts), every copy's destination
parent directory was created by an earlier mkdir, and directory creation
fails exactly when the target directory already exists. -/
theorem materializer_phase_order (dst : Path) (pairs : List (Path × Option DateTime))
    (g : Groupby) :
    (∀ (i : Nat) (p : Path), (groupbyTrace dst pairs g)[i]? = some (Event.mkdir p) →
      ∀ (j : Nat) (s d : Path),
        (groupbyTrace dst pairs g)[j]? = some (Event.copy s d) → i < j) ∧
    (∀ (i : Nat) (s d : Path), (groupbyTrace dst pairs g)[i]? = some (Event.copy s d) →
      ∃ j : Nat, j < i ∧
        (groupbyTrace dst pairs g)[j]? = some (Event.mkdir (pathParent d))) ∧
    (∀ (fs : FS) (p : Path),
      (∃ msg, stepEvent fs (Event.mkdir p) = Except.error msg) ↔ fs.contains p = true) := by
  refine ⟨(phaseEvents_order (groupMapping dst pairs g)).1,
    (phaseEvents_order (groupMapping dst pairs g)).2, fun fs p => ⟨?_, ?_⟩⟩
  · intro hmsg
    rcases hmsg with ⟨msg, hmsg⟩
    by_contra hc
    have hcf : fs.contains p = false := by
      cases hb : fs.contains p
      · rfl
      · exact absurd hb hc
    have hstep : stepEvent fs (Event.mkdir p) = mkdirp fs p := rfl
    rw [hstep] at hmsg
    unfold mkdirp at hmsg
    rw [hcf] at hmsg
    simp at hmsg
  · intro hc
    refine ⟨"FileExistsError", ?_⟩
    have hstep : stepEvent fs (Event.mkdir p) = mkdirp fs p := rfl
    rw [hstep]
    unfold mkdirp
    rw [hc]
    simp

/-- Witness for C7: on a one-file input, the copy at index 1 is preceded by
the mkdir of its destination parent at index 0, and mkdir on an existing
directory errors. -/
theorem materializer_phase_order_witness :
    (∃ j : Nat, j < 1 ∧
      (groupbyTrace ["d"] [(["s", "a.jpg"], none)] Groupby.month)[j]? =
        some (Event.mkdir (pathParent ["d", "UNKNOWN", "a.jpg"]))) ∧
    (∃ msg, stepEvent [["x"]] (Event.mkdir ["x"]) = Except.error msg) :=
  ⟨(materializer_phase_order ["d"] [(["s", "a.jpg"], none)] Groupby.month).2.1
      1 ["s", "a.jpg"] ["d", "UNKNOWN", "a.jpg"] (by decide),
    ((materializer_phase_order ["d"] [(["s", "a.jpg"], none)] Groupby.month).2.2
      [["x"]] ["x"]).mpr (by decide)⟩

/-- C4: For both commands, if the destination root already exists the run
raises the destination-exists error before doing any other work and the
filesystem state is unchanged. -/
theorem dest_exists_aborts (fs : FS) (src1 src2 dst : Path)
    (pairs1 pairs2 : List (Path × String))
    (pairs : List (Path × Option DateTime)) (g : Groupby)
    (h : fs.contains dst = true) :
    compare_image_content fs src1 src2 dst pairs1 pairs2 = (fs, some destExistsMsg) ∧
    groupby_captured_timestamp fs dst pairs g = (fs, some destExistsMsg) := by
  constructor
  · unfold compare_image_content
    rw [if_pos h]
  · unfold groupby_captured_timestamp
    rw [if_pos h]

/-- Witness for C4 with an existing destination root. -/
theorem dest_exists_aborts_witness :
    compare_image_content [["d"]] ["s1"] ["s2"] ["d"] [] [] =
      ([["d"]], some destExistsMsg) ∧
    groupby_captured_timestamp [["d"]] ["d"] [] Groupby.month =
      ([["d"]], some destExistsMsg) :=
  dest_exists_aborts [["d"]] ["s1"] ["s2"] ["d"] [] [] [] Groupby.month (by decide)

end ImageOrganizer
